import Mathlib

/-!
Verification of the rtlim token-bucket rate limiter (rtlim.c / rtlim.h,
UltraMessaging/rtlim).

Shallow embedding conventions:
* `unsigned long long` (u64) fields are `Nat`; every C arithmetic operation on
  them that can wrap (the addition `last_refill_ns + refill_interval_ns` at the
  refill check and the subtraction computing `delta_ns` in the BlockSleep path)
  is written with an explicit `% 2 ^ 64`.
* C `int` values are `Int`; the two implicit C conversions are made explicit:
  `int_to_u64` (usual arithmetic conversion of the `int` request when compared
  against the u64 `refill_token_amount` field) and `u64_to_int` (the assignment
  `current_tokens = refill_token_amount` at refill, modelled as two's-complement
  truncation).  Plain `int` arithmetic (`current_tokens -= take_token_amount`,
  `take_token_amount -= current_tokens`) is exact `Int` arithmetic; theorems add
  range hypotheses where the magnitude matters.
* The monotonic clock is a trace `clock : Nat → Nat` giving the value returned
  by `current_time_ns()` at the i-th loop iteration of a `rtlim_take` call.
* The do-while loop of `rtlim_take` is a fuel-indexed recursion: `none` means
  the loop was still running after `fuel` iterations; `some (rc, s)` means the
  call returned `rc` with final bucket state `s`.
-/

/-- Size of the u64 value space, `2 ^ 64`. -/
def u64sz : Nat := 2 ^ 64

/-- C usual arithmetic conversion of an `int` to `unsigned long long`:
reduction modulo `2 ^ 64` (negative values wrap up). -/
def int_to_u64 (x : Int) : Nat := (x % ((2 : Int) ^ 64)).toNat

/-- C conversion of an `unsigned long long` to `int`, modelled as
two's-complement truncation to 32 bits (gcc behaviour for out-of-range
values; exact for values below `2 ^ 31`). -/
def u64_to_int (n : Nat) : Int :=
  if n % 2 ^ 32 < 2 ^ 31 then ((n % 2 ^ 32 : Nat) : Int)
  else ((n % 2 ^ 32 : Nat) : Int) - 2 ^ 32

/-- The `rtlim_s` structure of rtlim.h: four u64 fields and the `int` token
counter. -/
structure rtlim_t where
  refill_interval_ns : Nat
  last_refill_ns : Nat
  refill_token_amount : Nat
  cur_ns : Nat
  current_tokens : Int
deriving DecidableEq

/-- Value of the `RTLIM_BLOCK_SPIN` block-mode constant (rtlim.h). -/
def RTLIM_BLOCK_SPIN : Int := 1

/-- Value of the `RTLIM_BLOCK_SLEEP` block-mode constant (rtlim.h). -/
def RTLIM_BLOCK_SLEEP : Int := 2

/-- Value of the `RTLIM_NON_BLOCK` block-mode constant (rtlim.h). -/
def RTLIM_NON_BLOCK : Int := 3

/-- `rtlim_create(refill_interval_ns, refill_token_amount)` with `now` the
value read from `current_time_ns()`.  It stores the interval, converts the
`int` refill amount into the u64 `refill_token_amount` field, fills the
bucket (`current_tokens = refill_token_amount`, an int-to-int copy of the
argument), and timestamps both `cur_ns` and `last_refill_ns` with `now`.
Construction is a total function: the C code has no error return (allocation
failure aborts the process and is outside the model). -/
def rtlim_create (refill_interval_ns : Nat) (refill_token_amount : Int)
    (now : Nat) : rtlim_t :=
  { refill_interval_ns := refill_interval_ns,
    last_refill_ns := now,
    refill_token_amount := int_to_u64 refill_token_amount,
    cur_ns := now,
    current_tokens := refill_token_amount }

/-- The head of each `rtlim_take` loop iteration: store the clock reading in
`cur_ns`, then the refill check of rtlim.c lines 117-120: if
`cur_ns >= last_refill_ns + refill_interval_ns` (u64 addition, hence the
`% u64sz`), reset `current_tokens` to the (int-converted) refill amount and
`last_refill_ns` to `cur_ns`. -/
def refill_update (s : rtlim_t) (now : Nat) : rtlim_t :=
  if (s.last_refill_ns + s.refill_interval_ns) % u64sz ≤ now then
    { s with cur_ns := now,
             current_tokens := u64_to_int s.refill_token_amount,
             last_refill_ns := now }
  else
    { s with cur_ns := now }

/-- The u64 computation
`delta_ns = (last_refill_ns + refill_interval_ns) - cur_ns` of rtlim.c
lines 139-140: the addition wraps modulo `2 ^ 64` and the subtraction is
u64 (wrapping) subtraction. -/
def delta_ns (s : rtlim_t) : Nat :=
  ((s.last_refill_ns + s.refill_interval_ns) % u64sz + u64sz
    - s.cur_ns % u64sz) % u64sz

/-- Result of one iteration of the `rtlim_take` do-while loop: the bucket
state `st` after the iteration, the remaining `take_token_amount` in `amt`,
`rc = some r` when the iteration executed a `return r` statement, plus two
ghost observations: `consumed` (tokens subtracted from `current_tokens`
during this iteration) and `slept` (the `delta_ns` passed to `select` when
the BlockSleep branch actually slept). -/
structure TakeIterOut where
  st : rtlim_t
  amt : Int
  rc : Option Int
  consumed : Int
  slept : Option Nat
deriving DecidableEq

/-- One iteration of the `rtlim_take` loop body (rtlim.c lines 113-150):
clock read and refill check (`refill_update`), then either consume the full
request (success path, remaining set to 0), or — with insufficient tokens —
return `-1` in non-blocking mode, or consume everything available and, in
BlockSleep mode, sleep for `delta_ns` when it is positive. -/
def take_iter (s : rtlim_t) (take_token_amount : Int) (block : Int)
    (now : Nat) : TakeIterOut :=
  let s2 := refill_update s now
  if take_token_amount ≤ s2.current_tokens then
    { st := { s2 with current_tokens := s2.current_tokens - take_token_amount },
      amt := 0, rc := none, consumed := take_token_amount, slept := none }
  else if block = RTLIM_NON_BLOCK then
    { st := s2, amt := take_token_amount, rc := some (-1), consumed := 0,
      slept := none }
  else
    { st := { s2 with current_tokens := 0 },
      amt := take_token_amount - s2.current_tokens,
      rc := none, consumed := s2.current_tokens,
      slept := if block = RTLIM_BLOCK_SLEEP then
                 (if 0 < delta_ns s2 then some (delta_ns s2) else none)
               else none }

/-- The do-while loop of `rtlim_take`, iterating `take_iter` with the clock
trace, starting at trace index `i`; the loop repeats while the remaining
amount is positive (`while (take_token_amount > 0)`), and `fuel` bounds the
number of iterations explored (`none` = still looping). -/
def rtlim_take_loop (fuel : Nat) (clock : Nat → Nat) (i : Nat) (s : rtlim_t)
    (take_token_amount : Int) (block : Int) : Option (Int × rtlim_t) :=
  match fuel with
  | 0 => none
  | Nat.succ f =>
    let out := take_iter s take_token_amount block (clock i)
    match out.rc with
    | some r => some (r, out.st)
    | none =>
      if 0 < out.amt then rtlim_take_loop f clock (i + 1) out.st out.amt block
      else some (0, out.st)

/-- `rtlim_take(rtlim, take_token_amount, block)`: the guard of rtlim.c
line 108 (non-blocking request exceeding the refill amount, compared after
int-to-u64 conversion, returns `-2` with no clock read and no state change),
followed by the loop.  Returns `some (rc, s)` when the call returns `rc`
leaving the bucket in state `s`. -/
def rtlim_take (fuel : Nat) (clock : Nat → Nat) (s : rtlim_t)
    (take_token_amount : Int) (block : Int) : Option (Int × rtlim_t) :=
  if block = RTLIM_NON_BLOCK ∧
      s.refill_token_amount < int_to_u64 take_token_amount then
    some (-2, s)
  else
    rtlim_take_loop fuel clock 0 s take_token_amount block

/-- The `rtlim_take` loop instrumented with a ghost accumulator of the total
tokens consumed (sum of the per-iteration `consumed` fields); identical to
`rtlim_take_loop` in its first two result components. -/
def rtlim_take_loopC (fuel : Nat) (clock : Nat → Nat) (i : Nat) (s : rtlim_t)
    (take_token_amount : Int) (block : Int) (acc : Int) :
    Option (Int × rtlim_t × Int) :=
  match fuel with
  | 0 => none
  | Nat.succ f =>
    let out := take_iter s take_token_amount block (clock i)
    match out.rc with
    | some r => some (r, out.st, acc + out.consumed)
    | none =>
      if 0 < out.amt then
        rtlim_take_loopC f clock (i + 1) out.st out.amt block
          (acc + out.consumed)
      else some (0, out.st, acc + out.consumed)

/-- `rtlim_take` instrumented with the total-consumed ghost accumulator. -/
def rtlim_take_consumed (fuel : Nat) (clock : Nat → Nat) (s : rtlim_t)
    (take_token_amount : Int) (block : Int) : Option (Int × rtlim_t × Int) :=
  if block = RTLIM_NON_BLOCK ∧
      s.refill_token_amount < int_to_u64 take_token_amount then
    some (-2, s, 0)
  else
    rtlim_take_loopC fuel clock 0 s take_token_amount block 0

/-- Well-formedness of a bucket: the u64 refill amount fits in an `int`
(true of every bucket built by `rtlim_create` from a nonnegative `int`),
and the capacity invariant `0 ≤ current_tokens ≤ refill_token_amount`. -/
def rtlim_wf (s : rtlim_t) : Prop :=
  s.refill_token_amount < 2 ^ 31 ∧ 0 ≤ s.current_tokens ∧
    s.current_tokens ≤ (s.refill_token_amount : Int)

/-- Reachability between bucket states by completed `rtlim_take` calls with
nonnegative request amounts (any block mode, any clock trace, any fuel). -/
inductive rtlim_reachable : rtlim_t → rtlim_t → Prop where
  | refl (s : rtlim_t) : rtlim_reachable s s
  | step (s t t' : rtlim_t) (fuel : Nat) (clock : Nat → Nat)
      (amt block rc : Int) (hreach : rtlim_reachable s t) (hamt : 0 ≤ amt)
      (htake : rtlim_take fuel clock t amt block = some (rc, t')) :
      rtlim_reachable s t'

/-- Claim C7: `rtlim_create` always succeeds (it is a total function — the C
code has no error return), and the bucket it returns starts full
(`current_tokens` equals the requested `refill_token_amount`) with both
timestamps set to the monotonic time read at creation, and the configured
interval stored unchanged. -/
theorem C7_create_full (refill_interval_ns : Nat) (refill_token_amount : Int)
    (now : Nat) :
    (rtlim_create refill_interval_ns refill_token_amount now).current_tokens
        = refill_token_amount ∧
    (rtlim_create refill_interval_ns refill_token_amount now).last_refill_ns
        = now ∧
    (rtlim_create refill_interval_ns refill_token_amount now).cur_ns = now ∧
    (rtlim_create refill_interval_ns refill_token_amount
        now).refill_interval_ns = refill_interval_ns := by
  refine ⟨rfl, rfl, rfl, rfl⟩

lemma int_to_u64_nonneg (x : Int) (h0 : 0 ≤ x) (h1 : x < (2 : Int) ^ 64) :
    int_to_u64 x = x.toNat := by
  unfold int_to_u64
  rw [Int.emod_eq_of_lt h0 (by norm_num at h1 ⊢; omega)]

lemma u64_to_int_small (n : Nat) (h : n < 2 ^ 31) : u64_to_int n = (n : Int) := by
  unfold u64_to_int
  rw [Nat.mod_eq_of_lt (by omega)]
  rw [if_pos (by omega)]

lemma u64_int_roundtrip (a : Int) (h1 : -(2 ^ 31) ≤ a) (h2 : a < 2 ^ 31) :
    u64_to_int (int_to_u64 a) = a := by
  unfold u64_to_int int_to_u64
  norm_num at h1 h2 ⊢
  split <;> omega

/-- Claim C2: a non-blocking request strictly larger than the refill amount
always fails with `-2` (`ExceedsCapacity`): for every clock trace and every
fuel the call returns `some (-2, s)` with the bucket unchanged, so no clock
reading is consumed and no field is written.  The request is an `int`, hence
the `2 ^ 31` range bound. -/
theorem C2_nonblock_over_capacity (fuel : Nat) (clock : Nat → Nat)
    (s : rtlim_t) (take_token_amount : Int)
    (hgt : (s.refill_token_amount : Int) < take_token_amount)
    (hrange : take_token_amount < 2 ^ 31) :
    rtlim_take fuel clock s take_token_amount RTLIM_NON_BLOCK
      = some (-2, s) := by
  unfold rtlim_take
  rw [if_pos]
  refine ⟨rfl, ?_⟩
  rw [int_to_u64_nonneg take_token_amount (by omega) (by norm_num at hrange ⊢; omega)]
  omega

/-- Claim C2 witness: concrete instance — capacity 100, request 200,
non-blocking, fails with `-2` leaving the bucket untouched. -/
theorem C2_nonblock_over_capacity_witness :
    rtlim_take 0 (fun _ => 0) (rtlim_create 500000000 100 7) 200
      RTLIM_NON_BLOCK = some (-2, rtlim_create 500000000 100 7) :=
  C2_nonblock_over_capacity 0 (fun _ => 0) (rtlim_create 500000000 100 7) 200
    (by decide) (by decide)

/-- Claim C10: a strictly negative request in non-blocking mode is promoted
modulo `2 ^ 64` by the int-to-u64 usual arithmetic conversion at the guard of
rtlim.c line 108, so it compares larger than any positive in-range refill
amount and the call returns `-2` with no clock read and no state change. -/
theorem C10_negative_request (fuel : Nat) (clock : Nat → Nat) (s : rtlim_t)
    (take_token_amount : Int)
    (hcap0 : 0 < s.refill_token_amount)
    (hcap1 : s.refill_token_amount < 2 ^ 31)
    (ht0 : take_token_amount < 0)
    (ht1 : -(2 ^ 31) ≤ take_token_amount) :
    rtlim_take fuel clock s take_token_amount RTLIM_NON_BLOCK
      = some (-2, s) := by
  unfold rtlim_take
  rw [if_pos]
  refine ⟨rfl, ?_⟩
  unfold int_to_u64
  norm_num at ht0 ht1 hcap1 ⊢
  omega

/-- Claim C10 witness: concrete instance — capacity 100, request `-1`,
non-blocking, returns `-2` with the bucket unchanged. -/
theorem C10_negative_request_witness :
    rtlim_take 0 (fun _ => 0) (rtlim_create 500000000 100 7) (-1)
      RTLIM_NON_BLOCK = some (-2, rtlim_create 500000000 100 7) :=
  C10_negative_request 0 (fun _ => 0) (rtlim_create 500000000 100 7) (-1)
    (by decide) (by decide) (by decide) (by decide)

/-- Claim C4: in any loop iteration, if the observed time `now` is at or
after `last_refill_ns + refill_interval_ns`, the refill check resets
`current_tokens` to exactly the configured refill amount `a` (the `int`
passed to `rtlim_create`, stored as `int_to_u64 a`) and sets
`last_refill_ns = now`, regardless of the prior token count and of how many
whole intervals elapsed; and the consumption logic of the same iteration
then runs on the refilled value (a request `amt ≤ a` leaves exactly
`a - amt` tokens, whatever the tokens were before the refill). -/
theorem C4_refill_boundary (s : rtlim_t) (now : Nat) (a amt block : Int)
    (ha1 : -(2 ^ 31) ≤ a) (ha2 : a < 2 ^ 31)
    (hcap : s.refill_token_amount = int_to_u64 a)
    (hnow : s.last_refill_ns + s.refill_interval_ns ≤ now)
    (hamt : amt ≤ a) :
    (refill_update s now).current_tokens = a ∧
    (refill_update s now).last_refill_ns = now ∧
    (take_iter s amt block now).st.current_tokens = a - amt := by
  have hcond : (s.last_refill_ns + s.refill_interval_ns) % u64sz ≤ now :=
    le_trans (Nat.mod_le _ _) hnow
  have hru : refill_update s now =
      { s with cur_ns := now,
               current_tokens := u64_to_int s.refill_token_amount,
               last_refill_ns := now } := by
    unfold refill_update
    rw [if_pos hcond]
  have hct : (refill_update s now).current_tokens = a := by
    rw [hru, hcap]
    exact u64_int_roundtrip a ha1 ha2
  refine ⟨hct, by rw [hru], ?_⟩
  simp only [take_iter]
  rw [hct, if_pos hamt]

/-- Claim C4 witness: concrete instance — bucket created with amount 7 and
interval 5 at time 0, observed at time 5 (exactly the boundary): tokens reset
to 7, timestamp set to 5, and a request of 3 then leaves 7 - 3 tokens. -/
theorem C4_refill_boundary_witness :
    (refill_update (rtlim_create 5 7 0) 5).current_tokens = 7 ∧
    (refill_update (rtlim_create 5 7 0) 5).last_refill_ns = 5 ∧
    (take_iter (rtlim_create 5 7 0) 3 RTLIM_BLOCK_SPIN 5).st.current_tokens
      = 7 - 3 :=
  C4_refill_boundary (rtlim_create 5 7 0) 5 7 3 RTLIM_BLOCK_SPIN (by decide)
    (by decide) rfl (by decide) (by decide)

lemma refill_update_frame (s : rtlim_t) (now : Nat) :
    (refill_update s now).refill_interval_ns = s.refill_interval_ns ∧
    (refill_update s now).refill_token_amount = s.refill_token_amount ∧
    (refill_update s now).cur_ns = now := by
  unfold refill_update
  split
  · exact ⟨rfl, rfl, rfl⟩
  · exact ⟨rfl, rfl, rfl⟩

lemma take_iter_frame (s : rtlim_t) (amt block : Int) (now : Nat) :
    (take_iter s amt block now).st.refill_interval_ns = s.refill_interval_ns ∧
    (take_iter s amt block now).st.refill_token_amount
      = s.refill_token_amount := by
  obtain ⟨h1, h2, _⟩ := refill_update_frame s now
  simp only [take_iter]
  split
  · exact ⟨h1, h2⟩
  · split
    · exact ⟨h1, h2⟩
    · exact ⟨h1, h2⟩

lemma rtlim_take_loop_frame (fuel : Nat) :
    ∀ (clock : Nat → Nat) (i : Nat) (s : rtlim_t) (amt block rc : Int)
      (s' : rtlim_t),
      rtlim_take_loop fuel clock i s amt block = some (rc, s') →
      s'.refill_interval_ns = s.refill_interval_ns ∧
      s'.refill_token_amount = s.refill_token_amount := by
  induction fuel with
  | zero =>
    intro clock i s amt block rc s' h
    simp [rtlim_take_loop] at h
  | succ f ih =>
    intro clock i s amt block rc s' h
    obtain ⟨h1, h2⟩ := take_iter_frame s amt block (clock i)
    simp only [rtlim_take_loop] at h
    cases hrc : (take_iter s amt block (clock i)).rc with
    | some r =>
      rw [hrc] at h
      simp only [Option.some.injEq, Prod.mk.injEq] at h
      rw [← h.2]
      exact ⟨h1, h2⟩
    | none =>
      rw [hrc] at h
      simp only at h
      by_cases hamt : 0 < (take_iter s amt block (clock i)).amt
      · rw [if_pos hamt] at h
        obtain ⟨g1, g2⟩ := ih clock (i + 1) (take_iter s amt block (clock i)).st
          (take_iter s amt block (clock i)).amt block rc s' h
        exact ⟨g1.trans h1, g2.trans h2⟩
      · rw [if_neg hamt] at h
        simp only [Option.some.injEq, Prod.mk.injEq] at h
        rw [← h.2]
        exact ⟨h1, h2⟩

/-- Claim C8: whatever the mode, the request, the clock trace and the
result, a completed `rtlim_take` call leaves the configuration fields
`refill_interval_ns` and `refill_token_amount` of the bucket exactly as it
found them (they are written only by `rtlim_create`). -/
theorem C8_config_immutable (fuel : Nat) (clock : Nat → Nat) (s : rtlim_t)
    (take_token_amount block rc : Int) (s' : rtlim_t)
    (h : rtlim_take fuel clock s take_token_amount block = some (rc, s')) :
    s'.refill_interval_ns = s.refill_interval_ns ∧
    s'.refill_token_amount = s.refill_token_amount := by
  unfold rtlim_take at h
  split at h
  · simp only [Option.some.injEq, Prod.mk.injEq] at h
    rw [← h.2]
    exact ⟨rfl, rfl⟩
  · exact rtlim_take_loop_frame fuel clock 0 s take_token_amount block rc s' h

/-- Claim C8 witness: concrete successful blocking take of 30 tokens from a
freshly created bucket of capacity 100 and interval 10; both configuration
fields are unchanged. -/
theorem C8_config_immutable_witness :
    ({ refill_interval_ns := 10, last_refill_ns := 0,
       refill_token_amount := 100, cur_ns := 0,
       current_tokens := 70 : rtlim_t }).refill_interval_ns
        = (rtlim_create 10 100 0).refill_interval_ns ∧
    ({ refill_interval_ns := 10, last_refill_ns := 0,
       refill_token_amount := 100, cur_ns := 0,
       current_tokens := 70 : rtlim_t }).refill_token_amount
        = (rtlim_create 10 100 0).refill_token_amount :=
  C8_config_immutable 1 (fun _ => 0) (rtlim_create 10 100 0) 30
    RTLIM_BLOCK_SPIN 0
    { refill_interval_ns := 10, last_refill_ns := 0,
      refill_token_amount := 100, cur_ns := 0, current_tokens := 70 }
    (by decide)

/-- Claim C3: for a non-blocking request that is within capacity but larger
than the current token level (reachable levels are nonnegative), whenever the
call fails it returns `-1` (`InsufficientTokens`) and leaves both
`current_tokens` and `last_refill_ns` exactly as they were — no partial
consumption is retained. -/
theorem C3_nonblock_insufficient (fuel : Nat) (clock : Nat → Nat)
    (s : rtlim_t) (take_token_amount rc : Int) (s' : rtlim_t)
    (hc0 : 0 ≤ s.current_tokens)
    (hlt : s.current_tokens < take_token_amount)
    (hle : take_token_amount ≤ (s.refill_token_amount : Int))
    (hcap : s.refill_token_amount < 2 ^ 31)
    (h : rtlim_take fuel clock s take_token_amount RTLIM_NON_BLOCK
          = some (rc, s'))
    (hfail : rc ≠ 0) :
    rc = -1 ∧ s'.current_tokens = s.current_tokens ∧
      s'.last_refill_ns = s.last_refill_ns := by
  have hguard : ¬ (RTLIM_NON_BLOCK = RTLIM_NON_BLOCK ∧
      s.refill_token_amount < int_to_u64 take_token_amount) := by
    rintro ⟨-, hbad⟩
    rw [int_to_u64_nonneg take_token_amount (by omega)
      (by norm_num at hcap ⊢; omega)] at hbad
    omega
  unfold rtlim_take at h
  rw [if_neg hguard] at h
  cases fuel with
  | zero => simp [rtlim_take_loop] at h
  | succ f =>
    simp only [rtlim_take_loop] at h
    by_cases hrf : (s.last_refill_ns + s.refill_interval_ns) % u64sz ≤ clock 0
    · -- a refill happened, so the request is satisfiable and the call succeeds
      have hru : refill_update s (clock 0) =
          { s with cur_ns := clock 0,
                   current_tokens := u64_to_int s.refill_token_amount,
                   last_refill_ns := clock 0 } := by
        unfold refill_update
        rw [if_pos hrf]
      have hct : (refill_update s (clock 0)).current_tokens
          = (s.refill_token_amount : Int) := by
        rw [hru]
        exact u64_to_int_small s.refill_token_amount hcap
      have hout : (take_iter s take_token_amount RTLIM_NON_BLOCK
          (clock 0)).amt = 0 ∧ (take_iter s take_token_amount RTLIM_NON_BLOCK
          (clock 0)).rc = none := by
        simp only [take_iter]
        rw [hct, if_pos hle]
        exact ⟨rfl, rfl⟩
      rw [hout.2] at h
      simp only at h
      rw [hout.1, if_neg (by omega)] at h
      simp only [Option.some.injEq, Prod.mk.injEq] at h
      exact absurd h.1.symm hfail
    · -- no refill: the insufficient-tokens non-blocking branch returns -1
      have hru : refill_update s (clock 0) = { s with cur_ns := clock 0 } := by
        unfold refill_update
        rw [if_neg hrf]
      have hout : take_iter s take_token_amount RTLIM_NON_BLOCK (clock 0)
          = { st := { s with cur_ns := clock 0 }, amt := take_token_amount,
              rc := some (-1), consumed := 0, slept := none } := by
        simp only [take_iter]
        rw [hru]
        rw [if_neg (by simp only []; omega)]
        simp
      rw [hout] at h
      simp only [Option.some.injEq, Prod.mk.injEq] at h
      refine ⟨h.1.symm, ?_, ?_⟩
      · rw [← h.2]
      · rw [← h.2]

/-- Claim C3 witness: bucket of capacity 100 with 0 tokens and no refill due
(clock stays at 0, interval 500): a non-blocking request of 100 fails with
`-1` and leaves `current_tokens` and `last_refill_ns` unchanged. -/
theorem C3_nonblock_insufficient_witness :
    (-1 : Int) = -1 ∧
    ({ refill_interval_ns := 500, last_refill_ns := 7,
       refill_token_amount := 100, cur_ns := 0,
       current_tokens := 0 : rtlim_t }).current_tokens
      = ({ refill_interval_ns := 500, last_refill_ns := 7,
           refill_token_amount := 100, cur_ns := 7,
           current_tokens := 0 : rtlim_t }).current_tokens ∧
    ({ refill_interval_ns := 500, last_refill_ns := 7,
       refill_token_amount := 100, cur_ns := 0,
       current_tokens := 0 : rtlim_t }).last_refill_ns
      = ({ refill_interval_ns := 500, last_refill_ns := 7,
           refill_token_amount := 100, cur_ns := 7,
           current_tokens := 0 : rtlim_t }).last_refill_ns := by
  exact C3_nonblock_insufficient 1 (fun _ => 0)
    { refill_interval_ns := 500, last_refill_ns := 7,
      refill_token_amount := 100, cur_ns := 7, current_tokens := 0 }
    100 (-1)
    { refill_interval_ns := 500, last_refill_ns := 7,
      refill_token_amount := 100, cur_ns := 0, current_tokens := 0 }
    (by decide) (by decide) (by decide) (by decide) (by decide) (by decide)

/-- Claim C9: at the BlockSleep waiting point (reached after the refill
check of the same iteration), the u64 computation
`delta_ns = (last_refill_ns + refill_interval_ns) - cur_ns` does not wrap:
`cur_ns = now` is at most `last_refill_ns + refill_interval_ns` there, the
computed value equals the exact difference, and it never exceeds
`refill_interval_ns`; and the iteration records a sleep only when that
`delta_ns` is strictly positive (and then sleeps exactly `delta_ns`).
Hypotheses: the clock is monotonic (`last_refill_ns ≤ now`) and the u64
fields are in range. -/
theorem C9_sleep_delta (s : rtlim_t) (now : Nat) (amt : Int)
    (hlast : s.last_refill_ns ≤ now)
    (hnow : now < u64sz)
    (hint : s.refill_interval_ns < u64sz) :
    delta_ns (refill_update s now)
        = (refill_update s now).last_refill_ns + s.refill_interval_ns - now ∧
    now ≤ (refill_update s now).last_refill_ns + s.refill_interval_ns ∧
    delta_ns (refill_update s now) ≤ s.refill_interval_ns ∧
    ((take_iter s amt RTLIM_BLOCK_SLEEP now).slept = none ∨
      ((take_iter s amt RTLIM_BLOCK_SLEEP now).slept
          = some (delta_ns (refill_update s now)) ∧
        0 < delta_ns (refill_update s now))) := by
  have horizon :
      delta_ns (refill_update s now)
          = (refill_update s now).last_refill_ns + s.refill_interval_ns
              - now ∧
        now ≤ (refill_update s now).last_refill_ns + s.refill_interval_ns ∧
        delta_ns (refill_update s now) ≤ s.refill_interval_ns := by
    by_cases hrf : (s.last_refill_ns + s.refill_interval_ns) % u64sz ≤ now
    · unfold refill_update
      rw [if_pos hrf]
      unfold delta_ns
      dsimp only
      unfold u64sz at *
      norm_num at *
      omega
    · unfold refill_update
      rw [if_neg hrf]
      unfold delta_ns
      dsimp only
      unfold u64sz at *
      norm_num at *
      omega
  refine ⟨horizon.1, horizon.2.1, horizon.2.2, ?_⟩
  simp only [take_iter]
  split
  · left
    rfl
  · rw [if_neg (by decide : ¬ (RTLIM_BLOCK_SLEEP = RTLIM_NON_BLOCK))]
    by_cases hd : 0 < delta_ns (refill_update s now)
    · right
      refine ⟨?_, hd⟩
      simp [hd]
    · left
      simp [hd]

/-- Claim C9 witness: bucket with interval 500, last refill at 0, observed at
time 100 with 0 tokens and a BlockSleep request of 10: the computed delta is
400 = (0 + 500) - 100 ≤ 500 and the iteration sleeps exactly 400. -/
theorem C9_sleep_delta_witness :
    delta_ns (refill_update
        { refill_interval_ns := 500, last_refill_ns := 0,
          refill_token_amount := 100, cur_ns := 0, current_tokens := 0 } 100)
        = (refill_update
        { refill_interval_ns := 500, last_refill_ns := 0,
          refill_token_amount := 100, cur_ns := 0, current_tokens := 0 }
          100).last_refill_ns + 500 - 100 ∧
    100 ≤ (refill_update
        { refill_interval_ns := 500, last_refill_ns := 0,
          refill_token_amount := 100, cur_ns := 0, current_tokens := 0 }
          100).last_refill_ns + 500 ∧
    delta_ns (refill_update
        { refill_interval_ns := 500, last_refill_ns := 0,
          refill_token_amount := 100, cur_ns := 0, current_tokens := 0 } 100)
        ≤ 500 ∧
    ((take_iter
        { refill_interval_ns := 500, last_refill_ns := 0,
          refill_token_amount := 100, cur_ns := 0, current_tokens := 0 }
        10 RTLIM_BLOCK_SLEEP 100).slept = none ∨
      ((take_iter
          { refill_interval_ns := 500, last_refill_ns := 0,
            refill_token_amount := 100, cur_ns := 0, current_tokens := 0 }
          10 RTLIM_BLOCK_SLEEP 100).slept
          = some (delta_ns (refill_update
          { refill_interval_ns := 500, last_refill_ns := 0,
            refill_token_amount := 100, cur_ns := 0, current_tokens := 0 }
            100)) ∧
        0 < delta_ns (refill_update
          { refill_interval_ns := 500, last_refill_ns := 0,
            refill_token_amount := 100, cur_ns := 0, current_tokens := 0 }
            100))) :=
  C9_sleep_delta
    { refill_interval_ns := 500, last_refill_ns := 0,
      refill_token_amount := 100, cur_ns := 0, current_tokens := 0 }
    100 10 (by decide) (by norm_num [u64sz]) (by norm_num [u64sz])

lemma refill_update_wf (s : rtlim_t) (now : Nat) (hwf : rtlim_wf s) :
    rtlim_wf (refill_update s now) := by
  obtain ⟨h1, h2, h3⟩ := hwf
  unfold refill_update
  split
  · refine ⟨h1, ?_, ?_⟩
    · show 0 ≤ u64_to_int s.refill_token_amount
      rw [u64_to_int_small s.refill_token_amount h1]
      exact Int.ofNat_nonneg _
    · show u64_to_int s.refill_token_amount ≤ (s.refill_token_amount : Int)
      rw [u64_to_int_small s.refill_token_amount h1]
  · exact ⟨h1, h2, h3⟩

lemma take_iter_wf (s : rtlim_t) (amt block : Int) (now : Nat)
    (hwf : rtlim_wf s) (hamt : 0 ≤ amt) :
    rtlim_wf (take_iter s amt block now).st := by
  obtain ⟨w1, w2, w3⟩ := refill_update_wf s now hwf
  simp only [take_iter]
  by_cases h : amt ≤ (refill_update s now).current_tokens
  · rw [if_pos h]
    refine ⟨w1, ?_, ?_⟩
    · show 0 ≤ (refill_update s now).current_tokens - amt
      omega
    · show (refill_update s now).current_tokens - amt
        ≤ ((refill_update s now).refill_token_amount : Int)
      omega
  · rw [if_neg h]
    by_cases hb : block = RTLIM_NON_BLOCK
    · rw [if_pos hb]
      exact ⟨w1, w2, w3⟩
    · rw [if_neg hb]
      refine ⟨w1, le_refl 0, ?_⟩
      show (0 : Int) ≤ ((refill_update s now).refill_token_amount : Int)
      exact Int.ofNat_nonneg _

lemma rtlim_take_loop_wf (fuel : Nat) :
    ∀ (clock : Nat → Nat) (i : Nat) (s : rtlim_t) (amt block rc : Int)
      (s' : rtlim_t), rtlim_wf s → 0 ≤ amt →
      rtlim_take_loop fuel clock i s amt block = some (rc, s') →
      rtlim_wf s' := by
  induction fuel with
  | zero =>
    intro clock i s amt block rc s' hwf hamt h
    simp [rtlim_take_loop] at h
  | succ f ih =>
    intro clock i s amt block rc s' hwf hamt h
    have hwf2 := take_iter_wf s amt block (clock i) hwf hamt
    simp only [rtlim_take_loop] at h
    cases hrc : (take_iter s amt block (clock i)).rc with
    | some r =>
      rw [hrc] at h
      simp only [Option.some.injEq, Prod.mk.injEq] at h
      rw [← h.2]
      exact hwf2
    | none =>
      rw [hrc] at h
      simp only at h
      by_cases hamt2 : 0 < (take_iter s amt block (clock i)).amt
      · rw [if_pos hamt2] at h
        exact ih clock (i + 1) _ _ block rc s' hwf2 (by omega) h
      · rw [if_neg hamt2] at h
        simp only [Option.some.injEq, Prod.mk.injEq] at h
        rw [← h.2]
        exact hwf2

lemma rtlim_take_wf (fuel : Nat) (clock : Nat → Nat) (s : rtlim_t)
    (amt block rc : Int) (s' : rtlim_t) (hwf : rtlim_wf s) (hamt : 0 ≤ amt)
    (h : rtlim_take fuel clock s amt block = some (rc, s')) :
    rtlim_wf s' := by
  unfold rtlim_take at h
  split at h
  · simp only [Option.some.injEq, Prod.mk.injEq] at h
    rw [← h.2]
    exact hwf
  · exact rtlim_take_loop_wf fuel clock 0 s amt block rc s' hwf hamt h

lemma rtlim_create_wf (interval : Nat) (a : Int) (now : Nat) (h0 : 0 ≤ a)
    (h1 : a < 2 ^ 31) : rtlim_wf (rtlim_create interval a now) := by
  have he : int_to_u64 a = a.toNat :=
    int_to_u64_nonneg a h0 (by norm_num at h1 ⊢; omega)
  refine ⟨?_, h0, ?_⟩
  · show int_to_u64 a < 2 ^ 31
    rw [he]
    omega
  · show a ≤ (int_to_u64 a : Int)
    rw [he]
    omega

/-- Claim C1 counterexample: the invariant fails for unrestricted take
amounts.  From a bucket created with capacity 100 (interval 1000, time 0), a
single blocking take of `-5` (the over-capacity guard only covers
non-blocking calls, and `-5 ≤ current_tokens` always holds) returns success
and drives `current_tokens` to 105, strictly above `refill_token_amount`. -/
theorem C1_capacity_invariant_counterexample :
    rtlim_take 1 (fun _ => 0) (rtlim_create 1000 100 0) (-5) RTLIM_BLOCK_SPIN
      = some (0, { refill_interval_ns := 1000, last_refill_ns := 0,
                   refill_token_amount := 100, cur_ns := 0,
                   current_tokens := 105 }) ∧
    ¬ (({ refill_interval_ns := 1000, last_refill_ns := 0,
          refill_token_amount := 100, cur_ns := 0,
          current_tokens := 105 : rtlim_t }).current_tokens
        ≤ (({ refill_interval_ns := 1000, last_refill_ns := 0,
              refill_token_amount := 100, cur_ns := 0,
              current_tokens := 105 : rtlim_t }).refill_token_amount : Int))
    := by decide

/-- Claim C1 (amended): for every bucket created with a nonnegative (int)
refill amount and every sequence of completed take calls with nonnegative
request amounts — any modes, any clock traces — every reachable state
satisfies `0 ≤ current_tokens ≤ refill_token_amount`; in particular the
invariant holds at entry and exit of every take call. -/
theorem C1_capacity_invariant (interval : Nat) (a : Int) (now : Nat)
    (s' : rtlim_t) (h0 : 0 ≤ a) (h1 : a < 2 ^ 31)
    (hr : rtlim_reachable (rtlim_create interval a now) s') :
    0 ≤ s'.current_tokens ∧
      s'.current_tokens ≤ (s'.refill_token_amount : Int) := by
  have key : rtlim_wf s' := by
    induction hr with
    | refl => exact rtlim_create_wf interval a now h0 h1
    | step t t' fuel clock amt block rc hreach hamt htake ihh =>
      exact rtlim_take_wf fuel clock t amt block rc t' ihh hamt htake
  exact ⟨key.2.1, key.2.2⟩

/-- Claim C1 witness: the invariant at a freshly created bucket of
capacity 100 (the empty sequence of take calls). -/
theorem C1_capacity_invariant_witness :
    0 ≤ (rtlim_create 1000 100 0).current_tokens ∧
      (rtlim_create 1000 100 0).current_tokens
        ≤ ((rtlim_create 1000 100 0).refill_token_amount : Int) :=
  C1_capacity_invariant 1000 100 0 (rtlim_create 1000 100 0) (by decide)
    (by decide) (rtlim_reachable.refl _)

lemma take_iter_cases (s : rtlim_t) (amt block : Int) (now : Nat) :
    (amt ≤ (refill_update s now).current_tokens ∧
      take_iter s amt block now =
        { st := { refill_update s now with
                  current_tokens := (refill_update s now).current_tokens
                    - amt },
          amt := 0, rc := none, consumed := amt, slept := none }) ∨
    (¬ amt ≤ (refill_update s now).current_tokens ∧ block = RTLIM_NON_BLOCK ∧
      take_iter s amt block now =
        { st := refill_update s now, amt := amt, rc := some (-1),
          consumed := 0, slept := none }) ∨
    (¬ amt ≤ (refill_update s now).current_tokens ∧
      ¬ block = RTLIM_NON_BLOCK ∧
      take_iter s amt block now =
        { st := { refill_update s now with current_tokens := 0 },
          amt := amt - (refill_update s now).current_tokens, rc := none,
          consumed := (refill_update s now).current_tokens,
          slept := if block = RTLIM_BLOCK_SLEEP then
                     (if 0 < delta_ns (refill_update s now) then
                        some (delta_ns (refill_update s now))
                      else none)
                   else none }) := by
  by_cases h : amt ≤ (refill_update s now).current_tokens
  · left
    exact ⟨h, by simp only [take_iter]; rw [if_pos h]⟩
  · by_cases hb : block = RTLIM_NON_BLOCK
    · right
      left
      exact ⟨h, hb, by simp only [take_iter]; rw [if_neg h, if_pos hb]⟩
    · right
      right
      exact ⟨h, hb, by simp only [take_iter]; rw [if_neg h, if_neg hb]⟩

lemma take_iter_consumed_amt (s : rtlim_t) (amt block : Int) (now : Nat) :
    (take_iter s amt block now).consumed + (take_iter s amt block now).amt
      = amt := by
  rcases take_iter_cases s amt block now with ⟨hc, heq⟩ | ⟨hc, hb, heq⟩ |
    ⟨hc, hb, heq⟩ <;> rw [heq] <;> dsimp only <;> omega

lemma take_iter_rc_val (s : rtlim_t) (amt block : Int) (now : Nat) (r : Int)
    (h : (take_iter s amt block now).rc = some r) :
    block = RTLIM_NON_BLOCK ∧ r = -1 := by
  rcases take_iter_cases s amt block now with ⟨hc, heq⟩ | ⟨hc, hb, heq⟩ |
    ⟨hc, hb, heq⟩ <;> rw [heq] at h <;> simp only [Option.some.injEq] at h
  · exact absurd h (by simp)
  · exact ⟨hb, h.symm⟩
  · exact absurd h (by simp)

lemma take_iter_amt_exit (s : rtlim_t) (amt block : Int) (now : Nat)
    (hrc : (take_iter s amt block now).rc = none)
    (hle : ¬ 0 < (take_iter s amt block now).amt) :
    (take_iter s amt block now).amt = 0 := by
  rcases take_iter_cases s amt block now with ⟨hc, heq⟩ | ⟨hc, hb, heq⟩ |
    ⟨hc, hb, heq⟩
  · rw [heq]
  · rw [heq] at hrc
    exact absurd hrc (by simp)
  · rw [heq] at hle ⊢
    show amt - (refill_update s now).current_tokens = 0
    have hle2 : ¬ 0 < amt - (refill_update s now).current_tokens := hle
    omega

lemma rtlim_take_loopC_fst (fuel : Nat) :
    ∀ (clock : Nat → Nat) (i : Nat) (s : rtlim_t) (amt block acc : Int),
      (rtlim_take_loopC fuel clock i s amt block acc).map
          (fun t => (t.1, t.2.1))
        = rtlim_take_loop fuel clock i s amt block := by
  induction fuel with
  | zero =>
    intro clock i s amt block acc
    rfl
  | succ f ih =>
    intro clock i s amt block acc
    simp only [rtlim_take_loopC, rtlim_take_loop]
    cases hrc : (take_iter s amt block (clock i)).rc with
    | some r => rfl
    | none =>
      dsimp only
      by_cases hamt : 0 < (take_iter s amt block (clock i)).amt
      · rw [if_pos hamt, if_pos hamt]
        exact ih clock (i + 1) _ _ block _
      · rw [if_neg hamt, if_neg hamt]
        rfl

lemma rtlim_take_loopC_sum (fuel : Nat) :
    ∀ (clock : Nat → Nat) (i : Nat) (s : rtlim_t) (amt block acc rc : Int)
      (s' : rtlim_t) (c : Int),
      rtlim_take_loopC fuel clock i s amt block acc = some (rc, s', c) →
      rc = 0 → c = acc + amt := by
  induction fuel with
  | zero =>
    intro clock i s amt block acc rc s' c h hrc0
    simp [rtlim_take_loopC] at h
  | succ f ih =>
    intro clock i s amt block acc rc s' c h hrc0
    have hca := take_iter_consumed_amt s amt block (clock i)
    simp only [rtlim_take_loopC] at h
    cases hrc : (take_iter s amt block (clock i)).rc with
    | some r =>
      rw [hrc] at h
      obtain ⟨-, hr⟩ := take_iter_rc_val s amt block (clock i) r hrc
      simp only [Option.some.injEq, Prod.mk.injEq] at h
      omega
    | none =>
      rw [hrc] at h
      simp only at h
      by_cases hamt : 0 < (take_iter s amt block (clock i)).amt
      · rw [if_pos hamt] at h
        have := ih clock (i + 1) _ _ block _ rc s' c h hrc0
        omega
      · rw [if_neg hamt] at h
        have hz := take_iter_amt_exit s amt block (clock i) hrc hamt
        simp only [Option.some.injEq, Prod.mk.injEq] at h
        omega

/-- Claim C5: for every `rtlim_take` call that returns success (0), the total
number of tokens consumed across all loop iterations (the ghost accumulator
of `rtlim_take_consumed`, summing each partial consumption and the final
subtraction, possibly spanning refills) equals exactly the requested
`take_token_amount`; the instrumentation is conservative — dropping the
accumulator gives back exactly `rtlim_take`'s result — and the loop only
exits with success once the remaining need reaches zero. -/
theorem C5_exact_accounting (fuel : Nat) (clock : Nat → Nat) (s : rtlim_t)
    (take_token_amount block rc : Int) (s' : rtlim_t) (c : Int)
    (h : rtlim_take_consumed fuel clock s take_token_amount block
          = some (rc, s', c)) :
    rtlim_take fuel clock s take_token_amount block = some (rc, s') ∧
      (rc = 0 → c = take_token_amount) := by
  unfold rtlim_take_consumed at h
  unfold rtlim_take
  by_cases hg : block = RTLIM_NON_BLOCK ∧
      s.refill_token_amount < int_to_u64 take_token_amount
  · rw [if_pos hg] at h ⊢
    simp only [Option.some.injEq, Prod.mk.injEq] at h ⊢
    refine ⟨⟨h.1, h.2.1⟩, ?_⟩
    intro hrc0
    omega
  · rw [if_neg hg] at h ⊢
    constructor
    · rw [← rtlim_take_loopC_fst fuel clock 0 s take_token_amount block 0, h]
      rfl
    · intro hrc0
      have := rtlim_take_loopC_sum fuel clock 0 s take_token_amount block 0
        rc s' c h hrc0
      omega

/-- Claim C5 witness: a blocking take of 30 from a fresh bucket of capacity
100 succeeds with total consumption exactly 30. -/
theorem C5_exact_accounting_witness :
    rtlim_take 1 (fun _ => 0) (rtlim_create 1000 100 0) 30 RTLIM_BLOCK_SPIN
      = some (0, { refill_interval_ns := 1000, last_refill_ns := 0,
                   refill_token_amount := 100, cur_ns := 0,
                   current_tokens := 70 }) ∧
    ((0 : Int) = 0 → (30 : Int) = 30) :=
  C5_exact_accounting 1 (fun _ => 0) (rtlim_create 1000 100 0) 30
    RTLIM_BLOCK_SPIN 0
    { refill_interval_ns := 1000, last_refill_ns := 0,
      refill_token_amount := 100, cur_ns := 0, current_tokens := 70 }
    30 (by decide)

lemma rtlim_take_loop_block_rc (fuel : Nat) :
    ∀ (clock : Nat → Nat) (i : Nat) (s : rtlim_t) (amt block rc : Int)
      (s' : rtlim_t), ¬ block = RTLIM_NON_BLOCK →
      rtlim_take_loop fuel clock i s amt block = some (rc, s') → rc = 0 := by
  induction fuel with
  | zero =>
    intro clock i s amt block rc s' hb h
    simp [rtlim_take_loop] at h
  | succ f ih =>
    intro clock i s amt block rc s' hb h
    simp only [rtlim_take_loop] at h
    cases hrc : (take_iter s amt block (clock i)).rc with
    | some r =>
      obtain ⟨hb3, -⟩ := take_iter_rc_val s amt block (clock i) r hrc
      exact absurd hb3 hb
    | none =>
      rw [hrc] at h
      simp only at h
      by_cases hamt : 0 < (take_iter s amt block (clock i)).amt
      · rw [if_pos hamt] at h
        exact ih clock (i + 1) _ _ block rc s' hb h
      · rw [if_neg hamt] at h
        simp only [Option.some.injEq, Prod.mk.injEq] at h
        exact h.1.symm

lemma rtlim_take_loop_succ (f : Nat) (clock : Nat → Nat) (i : Nat)
    (s : rtlim_t) (amt block : Int) :
    rtlim_take_loop (f + 1) clock i s amt block =
      match (take_iter s amt block (clock i)).rc with
      | some r => some (r, (take_iter s amt block (clock i)).st)
      | none =>
        if 0 < (take_iter s amt block (clock i)).amt then
          rtlim_take_loop f clock (i + 1) (take_iter s amt block (clock i)).st
            (take_iter s amt block (clock i)).amt block
        else some (0, (take_iter s amt block (clock i)).st) := rfl

lemma rtlim_take_loop_terminates_sat (n : Nat) :
    ∀ (clock : Nat → Nat) (i : Nat) (s : rtlim_t) (amt block : Int),
      ¬ block = RTLIM_NON_BLOCK →
      (∀ j, i ≤ j → u64sz ≤ clock j) →
      0 < u64_to_int s.refill_token_amount →
      amt ≤ (n : Int) * u64_to_int s.refill_token_amount →
      ∃ s', rtlim_take_loop (n + 1) clock i s amt block = some (0, s') := by
  induction n with
  | zero =>
    intro clock i s amt block hb hclk hcap hn
    have hrf : (s.last_refill_ns + s.refill_interval_ns) % u64sz ≤ clock i :=
      le_trans (le_of_lt (Nat.mod_lt _ (by norm_num [u64sz]))) (hclk i le_rfl)
    have hcur : (refill_update s (clock i)).current_tokens
        = u64_to_int s.refill_token_amount := by
      unfold refill_update
      rw [if_pos hrf]
    have hc : amt ≤ (refill_update s (clock i)).current_tokens := by
      rw [hcur]
      simp only [Nat.cast_zero, zero_mul] at hn
      omega
    rcases take_iter_cases s amt block (clock i) with ⟨-, heq⟩ |
      ⟨hc2, -, -⟩ | ⟨hc2, -, -⟩
    · exact ⟨(take_iter s amt block (clock i)).st,
        by rw [rtlim_take_loop_succ, heq]; rfl⟩
    · exact absurd hc hc2
    · exact absurd hc hc2
  | succ m ih =>
    intro clock i s amt block hb hclk hcap hn
    have hrf : (s.last_refill_ns + s.refill_interval_ns) % u64sz ≤ clock i :=
      le_trans (le_of_lt (Nat.mod_lt _ (by norm_num [u64sz]))) (hclk i le_rfl)
    have hcur : (refill_update s (clock i)).current_tokens
        = u64_to_int s.refill_token_amount := by
      unfold refill_update
      rw [if_pos hrf]
    by_cases hc : amt ≤ (refill_update s (clock i)).current_tokens
    · rcases take_iter_cases s amt block (clock i) with ⟨-, heq⟩ |
        ⟨hc2, -, -⟩ | ⟨hc2, -, -⟩
      · exact ⟨(take_iter s amt block (clock i)).st,
          by rw [rtlim_take_loop_succ, heq]; rfl⟩
      · exact absurd hc hc2
      · exact absurd hc hc2
    · rcases take_iter_cases s amt block (clock i) with ⟨hc2, -⟩ |
        ⟨-, hb2, -⟩ | ⟨-, -, heq⟩
      · exact absurd hc2 hc
      · exact absurd hb2 hb
      · have hbound : (take_iter s amt block (clock i)).amt
            ≤ (m : Int) * u64_to_int
                (take_iter s amt block (clock i)).st.refill_token_amount := by
          rw [(take_iter_frame s amt block (clock i)).2, heq]
          show amt - (refill_update s (clock i)).current_tokens
            ≤ (m : Int) * u64_to_int s.refill_token_amount
          rw [hcur]
          have hsp : ((m + 1 : Nat) : Int) * u64_to_int s.refill_token_amount
              = (m : Int) * u64_to_int s.refill_token_amount
                + u64_to_int s.refill_token_amount := by
            push_cast
            ring
          linarith [hn, hsp]
        obtain ⟨s', hs'⟩ := ih clock (i + 1)
          (take_iter s amt block (clock i)).st
          (take_iter s amt block (clock i)).amt block hb
          (fun j hj => hclk j (by omega))
          (by rw [(take_iter_frame s amt block (clock i)).2]; exact hcap)
          hbound
        refine ⟨s', ?_⟩
        rw [rtlim_take_loop_succ]
        rw [heq] at hs' ⊢
        dsimp only at hs' ⊢
        have hlt : (0 : Int)
            < amt - (refill_update s (clock i)).current_tokens := by
          omega
        rw [if_pos hlt]
        exact hs'

lemma rtlim_take_loop_terminates (d : Nat) :
    ∀ (clock : Nat → Nat) (i : Nat) (s : rtlim_t) (amt block : Int),
      ¬ block = RTLIM_NON_BLOCK →
      (∀ j, i + d ≤ j → u64sz ≤ clock j) →
      0 < u64_to_int s.refill_token_amount →
      ∃ fuel s', rtlim_take_loop fuel clock i s amt block = some (0, s') := by
  induction d with
  | zero =>
    intro clock i s amt block hb hclk hcap
    obtain ⟨s', hs'⟩ := rtlim_take_loop_terminates_sat amt.toNat clock i s amt
      block hb (fun j hj => hclk j (by omega)) hcap
      (calc amt ≤ (amt.toNat : Int) := Int.self_le_toNat amt
        _ ≤ (amt.toNat : Int) * u64_to_int s.refill_token_amount :=
          le_mul_of_one_le_right (by positivity) (by omega))
    exact ⟨amt.toNat + 1, s', hs'⟩
  | succ m ih =>
    intro clock i s amt block hb hclk hcap
    cases hrc : (take_iter s amt block (clock i)).rc with
    | some r =>
      obtain ⟨hb3, -⟩ := take_iter_rc_val s amt block (clock i) r hrc
      exact absurd hb3 hb
    | none =>
      by_cases hamt : 0 < (take_iter s amt block (clock i)).amt
      · obtain ⟨fuel, s', hs'⟩ := ih clock (i + 1)
          (take_iter s amt block (clock i)).st
          (take_iter s amt block (clock i)).amt block hb
          (fun j hj => hclk j (by omega))
          (by rw [(take_iter_frame s amt block (clock i)).2]; exact hcap)
        refine ⟨fuel + 1, s', ?_⟩
        rw [rtlim_take_loop_succ, hrc]
        dsimp only
        rw [if_pos hamt]
        exact hs'
      · refine ⟨0 + 1, (take_iter s amt block (clock i)).st, ?_⟩
        rw [rtlim_take_loop_succ, hrc]
        dsimp only
        rw [if_neg hamt]

/-- Claim C6: for a bucket with a positive in-range refill amount and a
monotonic clock trace that advances without bound, a take in either blocking
mode (BlockSpin or BlockSleep) terminates with success: some fuel makes the
loop return 0, and no fuel can make a blocking call return either error code
(`-1` and `-2` are returned only in non-blocking mode). -/
theorem C6_blocking_terminates (clock : Nat → Nat) (s : rtlim_t)
    (take_token_amount block : Int)
    (hmode : block = RTLIM_BLOCK_SPIN ∨ block = RTLIM_BLOCK_SLEEP)
    (hmono : ∀ i j : Nat, i ≤ j → clock i ≤ clock j)
    (hunb : ∀ T : Nat, ∃ i, T ≤ clock i)
    (hcap0 : 0 < s.refill_token_amount)
    (hcap1 : s.refill_token_amount < 2 ^ 31) :
    (∃ fuel s', rtlim_take fuel clock s take_token_amount block
        = some (0, s')) ∧
    (∀ fuel (rc : Int) s',
        rtlim_take fuel clock s take_token_amount block = some (rc, s') →
        rc = 0) := by
  have hb : ¬ block = RTLIM_NON_BLOCK := by
    rcases hmode with h | h <;> rw [h] <;> decide
  have hguard : ¬ (block = RTLIM_NON_BLOCK ∧
      s.refill_token_amount < int_to_u64 take_token_amount) :=
    fun hx => hb hx.1
  constructor
  · obtain ⟨i0, hi0⟩ := hunb u64sz
    have hcap : 0 < u64_to_int s.refill_token_amount := by
      rw [u64_to_int_small s.refill_token_amount hcap1]
      exact_mod_cast hcap0
    obtain ⟨fuel, s', hs'⟩ := rtlim_take_loop_terminates i0 clock 0 s
      take_token_amount block hb
      (fun j hj => le_trans hi0 (hmono i0 j (by omega))) hcap
    refine ⟨fuel, s', ?_⟩
    unfold rtlim_take
    rw [if_neg hguard]
    exact hs'
  · intro fuel rc s' h
    unfold rtlim_take at h
    rw [if_neg hguard] at h
    exact rtlim_take_loop_block_rc fuel clock 0 s take_token_amount block
      rc s' hb h

/-- Claim C6 witness: capacity-1 bucket, identity clock trace (monotonic and
unbounded), BlockSpin request of 1: the call terminates with success and can
never return an error code. -/
theorem C6_blocking_terminates_witness :
    (∃ fuel s', rtlim_take fuel (fun i => i) (rtlim_create 1 1 0) 1
        RTLIM_BLOCK_SPIN = some (0, s')) ∧
    (∀ fuel (rc : Int) s',
        rtlim_take fuel (fun i => i) (rtlim_create 1 1 0) 1 RTLIM_BLOCK_SPIN
          = some (rc, s') → rc = 0) :=
  C6_blocking_terminates (fun i => i) (rtlim_create 1 1 0) 1 RTLIM_BLOCK_SPIN
    (Or.inl rfl) (fun i j h => h) (fun T => ⟨T, le_refl T⟩) (by decide)
    (by decide)
